import Mathlib

/-!
Verification development for the MSAF segmentation orchestration engine
(`msaf/run.py`).

The orchestration code of `run.py` (algorithm resolution, the flat and
hierarchical decision tree, the per-track driver and the batch fan-out) is
embedded directly.  Collaborators that `run.py` drives but whose code lives
outside this repository snapshot (`io.get_features`, `io.read_references`,
`io.align_times`, `utils.get_time_frames`, `utils.process_segmentation_level`,
`jams2.load`, `joblib.Parallel`, the pluggable `Segmenter` strategies and the
global constant `msaf.minimum__frames`) are modelled from the specification;
each such definition carries a doc comment saying so.

Times are rationals (the real code uses floats; the orchestration layer only
compares, selects and concatenates times, so ℚ is a faithful stand-in).
Labels are integers.
-/

namespace Msaf

/-- A registered pluggable algorithm.  Modelled from the spec: the Strategy
(Segmenter) interface of §2/§9 — capability flags `is_boundary_type` /
`is_label_type` (read by `get_boundaries_module` / `get_labels_module` in
`run.py`), a flat entry point `Segmenter(audio, frame_times, ...).processFlat()`
returning raw boundary frame indices and raw labels, a seeded entry point
`Segmenter(audio, in_bound_idxs=...).processFlat()` whose label component only
is consumed, and a hierarchical entry point `processHierarchical()` returning
one raw (indices, labels) pair per level. -/
structure Algo where
  name : String
  is_boundary_type : Bool
  is_label_type : Bool
  processFlat : List ℚ → List Nat × List Int
  processFlatGivenBounds : List Nat → List Nat × List Int
  processHierarchical : List ℚ → List (List Nat × List Int)

/-- Per-track context, the data `io.get_features` hands to `run_algorithms`
(run.py line 100).  `nframes` is `hpcp.shape[0]`; `beats` the beat-synchronous
frame times; `framesync_times` models `utils.get_time_frames(dur, anal)`
(Modelled from the spec: the uniform frame-to-time mapping of §3, code not in
the snapshot); `references` models `io.read_references` (Modelled from the
spec §6: returns the reference (boundary_times, labels); `none` means reading
raises, i.e. no reference annotation exists for the track). -/
structure Track where
  nframes : Nat
  beats : List ℚ
  framesync_times : List ℚ
  dur : ℚ
  references : Option (List ℚ × List Int)

/-- The per-file bundle consumed by `process_track`.  `jam_beats` models the
beat layers of `jams2.load(file_struct.ref_file)` (Modelled from the spec:
each layer is its list of data; `none` means loading raises, e.g. the
reference file is missing or malformed). -/
structure FileStruct where
  track : Track
  jam_beats : Option (List (List Unit))
  features_file_exists : Bool

/-- The three orchestration-relevant configuration flags (spec §3). -/
structure Config where
  annot_beats : Bool
  framesync : Bool
  hier : Bool

/-- Process-wide environment: the registered-algorithm catalog (the attributes
of `msaf.algorithms` that `eval` resolves against) and the global constant
`msaf.minimum__frames` (Modelled from the spec: a fixed minimum-frames
threshold; its numeric value is not in the snapshot, so it is carried as a
field). -/
structure Env where
  algorithms : List Algo
  minimum__frames : Nat

/-- Failure taxonomy.  The first four are the configuration errors of spec §7,
matching the four `raise RuntimeError` sites of `run.py`;
`ReferenceLoadError` models an unexpected per-track I/O failure
(`jams2.load` raising), spec §7 third bullet. -/
inductive Err where
  | UnknownAlgorithm (ident : String)
  | CapabilityMismatch (ident : String)
  | MissingBoundaryAlgorithm
  | IncompatibleHierarchicalAlgorithms
  | ReferenceLoadError
  deriving DecidableEq

/-- Observable side effects of one orchestration run, used to state which
collaborators were invoked. -/
inductive Event where
  | invokeFlat (name : String)
  | invokeFlatLabels (name : String)
  | invokeHier (name : String)
  | readReferences
  | computeFeatures
  | save
  deriving DecidableEq

/-- The value `run_algorithms` returns: a flat (times, labels) pair or one
pair per hierarchy level. -/
inductive EstResult where
  | flat (times : List ℚ) (labels : List Int)
  | hier (levels : List (List ℚ × List Int))
  deriving DecidableEq

deriving instance DecidableEq for Except

/-- The reflective lookup `eval(algorithms.__name__ + "." + id)`:
find the registered algorithm of that name. -/
def lookup_algorithm (env : Env) (ident : String) : Option Algo :=
  env.algorithms.find? (fun a => a.name == ident)

/-- run.py lines 21-45: `"gt"` means ground truth (no module, never an
error); an unknown identifier raises; a module that is not a boundary type
raises. -/
def get_boundaries_module (env : Env) (boundaries_id : String) :
    Except Err (Option Algo) :=
  if boundaries_id = "gt" then .ok none
  else
    match lookup_algorithm env boundaries_id with
    | none => .error (.UnknownAlgorithm boundaries_id)
    | some m =>
      if m.is_boundary_type then .ok (some m)
      else .error (.CapabilityMismatch boundaries_id)

/-- run.py lines 48-72: `None` means no labeling (no module); an unknown
identifier raises; a module that is not a label type raises. -/
def get_labels_module (env : Env) (labels_id : Option String) :
    Except Err (Option Algo) :=
  match labels_id with
  | none => .ok none
  | some lid =>
    match lookup_algorithm env lid with
    | none => .error (.UnknownAlgorithm lid)
    | some m =>
      if m.is_label_type then .ok (some m)
      else .error (.CapabilityMismatch lid)

/-- Absolute value on ℚ, spelled out so that it evaluates by kernel
reduction. -/
def qabs (q : ℚ) : ℚ :=
  if q < 0 then -q else q

/-- Distance from `t` to the closest grid point. -/
def nearest_dist : List ℚ → ℚ → ℚ
  | [], _ => 0
  | [g], t => qabs (t - g)
  | g :: g2 :: rest, t => min (qabs (t - g)) (nearest_dist (g2 :: rest) t)

/-- Index of the grid point nearest to `t` (first one on ties). -/
def nearest_idx : List ℚ → ℚ → Nat
  | [], _ => 0
  | [_], _ => 0
  | g :: g2 :: rest, t =>
    if qabs (t - g) ≤ nearest_dist (g2 :: rest) t then 0
    else nearest_idx (g2 :: rest) t + 1

/-- Modelled from the spec: `io.align_times(est_times, frame_times[:-1])`
(run.py line 165), §4.3 — convert reference boundary times to frame-aligned
indices by nearest-frame alignment against the frame time grid. -/
def align_times (times : List ℚ) (frame_times : List ℚ) : List Nat :=
  times.map (fun t => nearest_idx frame_times t)

/-- Modelled from the spec: `utils.process_segmentation_level` (run.py lines
138-143 and 182-183), §4.2 BoundaryLabelNormalizer.  Out-of-range frame
indices are clamped to the last valid frame; duplicate boundaries at the same
frame index are dropped (`destutter (· < ·)`, which on the ascending index
lists the Strategy contract guarantees is exactly adjacent-duplicate removal
and in general keeps the ascending subsequence, matching the §8 guarantee
that the output is always ascending); indices are translated to times through
the frame-to-time map; the endpoints 0.0 and the track duration are inserted
when the raw output omitted them; the label sequence is adjusted to exactly
`len(boundary_times) - 1` entries, padding a mismatched count with the
default label 0. -/
def process_segmentation_level (est_idxs : List Nat) (est_labels : List Int)
    (nframes : Nat) (frame_times : List ℚ) (dur : ℚ) : List ℚ × List Int :=
  let clamped := est_idxs.map (fun i => min i (nframes - 1))
  let deduped := clamped.destutter (· < ·)
  let ts0 := deduped.map (fun i => frame_times.getD i 0)
  let ts1 := if ts0.head? = some 0 then ts0 else 0 :: ts0
  let ts2 := if ts1.getLast? = some dur then ts1 else ts1 ++ [dur]
  (ts2, est_labels.takeD (ts2.length - 1) 0)

/-- run.py lines 171-179: the labeling step of the flat split case.  With
exactly two boundary indices (one segment) the labeling strategy is skipped
and the single default label 0 is assigned; otherwise the label module is
invoked seeded with the boundary indices and only its label output is kept. -/
def label_step (labels_module : Algo) (est_idxs : List Nat) :
    List Event × List Int :=
  if est_idxs.length = 2 then ([], [0])
  else ([.invokeFlatLabels labels_module.name],
        (labels_module.processFlatGivenBounds est_idxs).2)

/-- run.py lines 148-179: the flat path before normalization.  `none` is the
early `return [], []` taken when ground-truth boundaries are requested but
reading references raises. -/
def flat_pre (track : Track) (bounds_module labels_module : Option Algo)
    (frame_times : List ℚ) : List Event × Option (List Nat × List Int) :=
  match bounds_module, labels_module with
  | some bm, some lm =>
    if bm.name = lm.name then
      ([.invokeFlat bm.name], some (bm.processFlat frame_times))
    else
      let est_idxs := (bm.processFlat frame_times).1
      let step := label_step lm est_idxs
      (.invokeFlat bm.name :: step.1, some (est_idxs, step.2))
  | some bm, none =>
    ([.invokeFlat bm.name], some (bm.processFlat frame_times))
  | none, lmOpt =>
    match track.references with
    | none => ([.readReferences], none)
    | some refs =>
      let est_idxs := align_times refs.1 frame_times.dropLast
      match lmOpt with
      | some lm =>
        let step := label_step lm est_idxs
        (.readReferences :: step.1, some (est_idxs, step.2))
      | none => ([.readReferences], some (est_idxs, refs.2))

/-- run.py lines 126-127: hierarchical mode rejects a label module whose
name differs from the boundary module's name. -/
def hier_incompatible (bm : Algo) (labels_module : Option Algo) : Bool :=
  match labels_module with
  | some lm => bm.name != lm.name
  | none => false

/-- run.py lines 75-185, `run_algorithms`: the minimum-frames short-circuit,
algorithm resolution, frame-time selection, the hierarchical-mode checks and
the flat/hierarchical execution paths, each normalized through
`process_segmentation_level`.  Alongside the result it returns the list of
collaborator invocations that happened before returning or raising. -/
def run_algorithms (env : Env) (track : Track) (boundaries_id : String)
    (labels_id : Option String) (config : Config) :
    List Event × Except Err EstResult :=
  let nframes := track.nframes
  let dur := track.dur
  if nframes ≤ env.minimum__frames then
    ([], .ok (.flat [0, dur] [0]))
  else
    match get_boundaries_module env boundaries_id with
    | .error e => ([], .error e)
    | .ok bounds_module =>
      match get_labels_module env labels_id with
      | .error e => ([], .error e)
      | .ok labels_module =>
        let frame_times :=
          if config.framesync then track.framesync_times else track.beats
        if config.hier then
          match bounds_module with
          | none => ([], .error .MissingBoundaryAlgorithm)
          | some bm =>
            if hier_incompatible bm labels_module then
              ([], .error .IncompatibleHierarchicalAlgorithms)
            else
              ([.invokeHier bm.name],
               .ok (.hier ((bm.processHierarchical frame_times).map
                 (fun p =>
                   process_segmentation_level p.1 p.2 nframes frame_times dur))))
        else
          match flat_pre track bounds_module labels_module frame_times with
          | (evs, none) => (evs, .ok (.flat [] []))
          | (evs, some pre) =>
            let r := process_segmentation_level pre.1 pre.2 nframes frame_times dur
            (evs, .ok (.flat r.1 r.2))

/-- run.py lines 220-235: feature computation when the cached artifact is
missing, the orchestration call, and persistence (`io.save_estimations`,
modelled as the `save` event). -/
def process_track_core (env : Env) (fs : FileStruct) (boundaries_id : String)
    (labels_id : Option String) (config : Config) :
    List Event × Except Err (Option EstResult) :=
  let evs0 : List Event :=
    if fs.features_file_exists then [] else [.computeFeatures]
  match run_algorithms env fs.track boundaries_id labels_id config with
  | (evs1, .error e) => (evs0 ++ evs1, .error e)
  | (evs1, .ok r) => (evs0 ++ evs1 ++ [.save], .ok (some r))

/-- run.py lines 188-235, `process_track`: with `annot_beats` set, the
reference file is loaded (raising when it cannot be, modelled by
`jam_beats = none`) and the track is skipped — Python `return` of `None`,
modelled as `.ok none` — unless some beat layer with at least one datum
exists; otherwise the core pipeline runs. -/
def process_track (env : Env) (fs : FileStruct) (boundaries_id : String)
    (labels_id : Option String) (config : Config) :
    List Event × Except Err (Option EstResult) :=
  if config.annot_beats then
    match fs.jam_beats with
    | none => ([], .error .ReferenceLoadError)
    | some jam =>
      if 0 < jam.length ∧ 0 < (jam.getD 0 []).length then
        process_track_core env fs boundaries_id labels_id config
      else
        ([], .ok none)
  else
    process_track_core env fs boundaries_id labels_id config

/-- run.py lines 332-339, the collection branch of `process`:
`Parallel(n_jobs=n_jobs)(delayed(process_track)(...) for ...)`.  Modelled
from the spec §5 as a map over the independent tracks in which — with
joblib semantics — any exception raised by one task propagates out of the
whole call. -/
def process (env : Env) (file_structs : List FileStruct)
    (boundaries_id : String) (labels_id : Option String) (config : Config) :
    Except Err (List (Option EstResult)) :=
  match file_structs with
  | [] => .ok []
  | fs :: rest =>
    match (process_track env fs boundaries_id labels_id config).2 with
    | .error e => .error e
    | .ok r =>
      match process env rest boundaries_id labels_id config with
      | .error e => .error e
      | .ok rs => .ok (r :: rs)

/-- Well-formedness of a frame-to-time grid against a frame count and track
duration (spec §3, TrackContext): strictly ascending frame times, at least
`nframes` of them, a positive frame count and duration, and every frame time
inside [0, duration]. -/
def WFTimes (frame_times : List ℚ) (nframes : Nat) (dur : ℚ) : Prop :=
  List.Chain' (· < ·) frame_times ∧ nframes ≤ frame_times.length ∧
    0 < nframes ∧ 0 < dur ∧ ∀ t ∈ frame_times, 0 ≤ t ∧ t ≤ dur

/-- A decision procedure for chains that the kernel can evaluate on concrete
lists. -/
instance (priority := 2000) decidableChainOfRel {α : Type} {R : α → α → Prop}
    [DecidableRel R] : ∀ l : List α, Decidable (List.Chain' R l)
  | [] => .isTrue List.chain'_nil
  | [a] => .isTrue (List.chain'_singleton a)
  | a :: b :: t =>
    match decidableChainOfRel (b :: t), inferInstanceAs (Decidable (R a b)) with
    | .isTrue h2, .isTrue h1 => .isTrue (List.chain'_cons.mpr ⟨h1, h2⟩)
    | .isFalse h2, _ => .isFalse fun hc => h2 (List.chain'_cons.mp hc).2
    | _, .isFalse h1 => .isFalse fun hc => h1 (List.chain'_cons.mp hc).1

instance (ft : List ℚ) (n : Nat) (dur : ℚ) : Decidable (WFTimes ft n dur) :=
  inferInstanceAs (Decidable (List.Chain' (· < ·) ft ∧ n ≤ ft.length ∧ 0 < n ∧
    0 < dur ∧ ∀ t ∈ ft, 0 ≤ t ∧ t ≤ dur))

/-- A well-formed flat segment sequence (spec §8): strictly ascending
boundary times from 0.0 to the duration, with one fewer label. -/
def GoodSeg (dur : ℚ) (ts : List ℚ) (ls : List Int) : Prop :=
  List.Chain' (· < ·) ts ∧ ts.head? = some 0 ∧ ts.getLast? = some dur ∧
    ls.length + 1 = ts.length

instance (dur : ℚ) (ts : List ℚ) (ls : List Int) : Decidable (GoodSeg dur ts ls) :=
  inferInstanceAs (Decidable (List.Chain' (· < ·) ts ∧ ts.head? = some 0 ∧
    ts.getLast? = some dur ∧ ls.length + 1 = ts.length))

/-- Concrete fixture: a boundary-only algorithm. -/
def algFoote : Algo where
  name := "foote"
  is_boundary_type := true
  is_label_type := false
  processFlat := fun _ => ([0, 1, 3], [5, 5])
  processFlatGivenBounds := fun _ => ([], [9])
  processHierarchical := fun _ => [([0, 1], [2]), ([0, 1, 2], [4, 4])]

/-- Concrete fixture: a label-only algorithm. -/
def algFmc2d : Algo where
  name := "fmc2d"
  is_boundary_type := false
  is_label_type := true
  processFlat := fun _ => ([0, 2], [1])
  processFlatGivenBounds := fun _ => ([], [3, 3])
  processHierarchical := fun _ => []

/-- Concrete fixture: an algorithm with both capabilities whose flat entry
point yields exactly two boundary indices with a non-default label. -/
def algSf : Algo where
  name := "sf"
  is_boundary_type := true
  is_label_type := true
  processFlat := fun _ => ([0, 3], [7])
  processFlatGivenBounds := fun _ => ([0, 3], [7])
  processHierarchical := fun _ => [([0, 3], [7])]

/-- Concrete fixture: a three-algorithm catalog with a minimum-frames
threshold of 2. -/
def env0 : Env where
  algorithms := [algFoote, algFmc2d, algSf]
  minimum__frames := 2

/-- Concrete fixture: a track at the minimum-frames threshold. -/
def trackShort : Track where
  nframes := 1
  beats := [0]
  framesync_times := [0]
  dur := 5
  references := none

/-- Concrete fixture: a normal-length track with no reference annotation. -/
def trackNoRefs : Track where
  nframes := 4
  beats := [0, 1, 2, 3]
  framesync_times := []
  dur := 4
  references := none

/-- Concrete fixture: the 180-second track of the spec §8 scenario, with
reference boundaries [0, 40, 95, 180] and reference labels [7, 7, 7]. -/
def trackRefs : Track where
  nframes := 4
  beats := [0, 40, 95, 180]
  framesync_times := []
  dur := 180
  references := some ([0, 40, 95, 180], [7, 7, 7])

/-- Concrete fixture: the same scenario track with reference labels
[-1, -1, -1]. -/
def trackRefsNeg : Track where
  nframes := 4
  beats := [0, 40, 95, 180]
  framesync_times := []
  dur := 180
  references := some ([0, 40, 95, 180], [-1, -1, -1])

/-- Flat-mode configuration, beat-synchronous frames. -/
def cfgFlat : Config where
  annot_beats := false
  framesync := false
  hier := false

/-- Hierarchical-mode configuration, beat-synchronous frames. -/
def cfgHier : Config where
  annot_beats := false
  framesync := false
  hier := true

/-- Flat-mode configuration with annotated beats required. -/
def cfgAnnot : Config where
  annot_beats := true
  framesync := false
  hier := false

/-- Concrete fixture: a file bundle whose reference file cannot be loaded. -/
def fsBad : FileStruct where
  track := trackNoRefs
  jam_beats := none
  features_file_exists := true

/-- Concrete fixture: a file bundle with one beat layer holding one datum. -/
def fsGood : FileStruct where
  track := trackShort
  jam_beats := some [[()]]
  features_file_exists := true

/-- Concrete fixture: a file bundle whose reference has no beat layers. -/
def fsEmptyJam : FileStruct where
  track := trackShort
  jam_beats := some []
  features_file_exists := true

/-- Mapping a function that is strictly monotone on the members of a strictly
ascending list preserves strict ascent. -/
theorem chain'_map_of_lt {g : Nat → ℚ} :
    ∀ {l : List Nat}, (∀ a ∈ l, ∀ b ∈ l, a < b → g a < g b) →
      List.Chain' (· < ·) l → List.Chain' (· < ·) (l.map g)
  | [], _, _ => List.chain'_nil
  | [_], _, _ => by simp
  | a :: b :: t, h, hc => by
    rw [List.map_cons, List.map_cons, List.chain'_cons]
    rw [List.chain'_cons] at hc
    refine ⟨h a (by simp) b (by simp) hc.1, ?_⟩
    rw [← List.map_cons]
    exact chain'_map_of_lt
      (fun x hx y hy hxy =>
        h x (List.mem_cons_of_mem _ hx) y (List.mem_cons_of_mem _ hy) hxy)
      hc.2

/-- In a strictly ascending list, in-range positions carry strictly ascending
values. -/
theorem sorted_getD_lt {ft : List ℚ} (hft : List.Chain' (· < ·) ft) {i j : Nat}
    (hij : i < j) (hj : j < ft.length) : ft.getD i 0 < ft.getD j 0 := by
  have hi : i < ft.length := lt_trans hij hj
  rw [List.getD_eq_getElem ft 0 hi, List.getD_eq_getElem ft 0 hj]
  exact (List.pairwise_iff_getElem.mp (List.chain'_iff_pairwise.mp hft)) i j hi hj hij

/-- Inserting the 0.0 endpoint when the raw times omit it preserves ascent
and the [0, dur] bounds, and forces the head to be 0. -/
theorem prepend_zero_spec (ts0 : List ℚ) (dur : ℚ)
    (hch : List.Chain' (· < ·) ts0) (hmem : ∀ t ∈ ts0, 0 ≤ t ∧ t ≤ dur)
    (hdur : 0 < dur) :
    List.Chain' (· < ·) (if ts0.head? = some 0 then ts0 else 0 :: ts0) ∧
      (if ts0.head? = some 0 then ts0 else 0 :: ts0).head? = some 0 ∧
      ∀ t ∈ (if ts0.head? = some 0 then ts0 else 0 :: ts0), 0 ≤ t ∧ t ≤ dur := by
  by_cases h : ts0.head? = some 0
  · simp only [if_pos h]
    exact ⟨hch, h, hmem⟩
  · simp only [if_neg h]
    refine ⟨?_, rfl, ?_⟩
    · rw [List.chain'_cons']
      refine ⟨?_, hch⟩
      intro y hy
      rcases lt_or_eq_of_le (hmem y (List.mem_of_mem_head? hy)).1 with h' | h'
      · exact h'
      · exfalso
        apply h
        rw [Option.mem_def] at hy
        rw [hy, ← h']
    · intro t ht
      rcases List.mem_cons.mp ht with rfl | ht'
      · exact ⟨le_refl 0, le_of_lt hdur⟩
      · exact hmem t ht'

/-- Appending the duration endpoint when the times omit it yields a strictly
ascending sequence from 0.0 to the duration. -/
theorem append_dur_spec (ts1 : List ℚ) (dur : ℚ)
    (hch : List.Chain' (· < ·) ts1) (hhead : ts1.head? = some 0)
    (hmem : ∀ t ∈ ts1, 0 ≤ t ∧ t ≤ dur) :
    List.Chain' (· < ·) (if ts1.getLast? = some dur then ts1 else ts1 ++ [dur]) ∧
      (if ts1.getLast? = some dur then ts1 else ts1 ++ [dur]).head? = some 0 ∧
      (if ts1.getLast? = some dur then ts1 else ts1 ++ [dur]).getLast? = some dur := by
  have hne : ts1 ≠ [] := by
    intro hnil
    rw [hnil] at hhead
    simp at hhead
  by_cases h : ts1.getLast? = some dur
  · simp only [if_pos h]
    exact ⟨hch, hhead, h⟩
  · simp only [if_neg h]
    refine ⟨?_, ?_, List.getLast?_concat ts1⟩
    · rw [List.chain'_append]
      refine ⟨hch, List.chain'_singleton dur, ?_⟩
      intro x hx y hy
      have hy' : dur = y := by simpa using hy
      rw [← hy']
      rcases lt_or_eq_of_le (hmem x (List.mem_of_mem_getLast? hx)).2 with h' | h'
      · exact h'
      · exfalso
        apply h
        rw [Option.mem_def] at hx
        rw [hx, h']
    · rw [List.head?_append_of_ne_nil _ hne]
      exact hhead

/-- The normalizer always yields a strictly ascending boundary-time sequence
running from 0.0 to the track duration, with exactly one fewer label than
boundary times, for any raw input over a well-formed frame grid. -/
theorem psl_spec (est_idxs : List Nat) (est_labels : List Int) (nframes : Nat)
    (frame_times : List ℚ) (dur : ℚ) (hwf : WFTimes frame_times nframes dur) :
    List.Chain' (· < ·)
        (process_segmentation_level est_idxs est_labels nframes frame_times dur).1 ∧
      (process_segmentation_level est_idxs est_labels nframes frame_times dur).1.head? =
        some 0 ∧
      (process_segmentation_level est_idxs est_labels nframes frame_times dur).1.getLast? =
        some dur ∧
      (process_segmentation_level est_idxs est_labels nframes frame_times dur).2.length + 1 =
        (process_segmentation_level est_idxs est_labels nframes frame_times dur).1.length := by
  obtain ⟨hchain, hlen, hpos, hdur, hbound⟩ := hwf
  have hmemD : ∀ i ∈ (est_idxs.map (fun i => min i (nframes - 1))).destutter (· < ·),
      i < frame_times.length := by
    intro i hi
    have hi2 := (List.destutter_sublist (· < ·) _).subset hi
    obtain ⟨j, _, rfl⟩ := List.mem_map.mp hi2
    calc min j (nframes - 1) ≤ nframes - 1 := min_le_right _ _
      _ < nframes := Nat.sub_lt hpos Nat.one_pos
      _ ≤ frame_times.length := hlen
  have hch0 : List.Chain' (· < ·)
      (((est_idxs.map (fun i => min i (nframes - 1))).destutter (· < ·)).map
        (fun i => frame_times.getD i 0)) :=
    chain'_map_of_lt
      (fun _ _ b hb hab => sorted_getD_lt hchain hab (hmemD b hb))
      (List.destutter_is_chain' _ _)
  have hmem0 : ∀ t ∈ (((est_idxs.map (fun i => min i (nframes - 1))).destutter (· < ·)).map
      (fun i => frame_times.getD i 0)), 0 ≤ t ∧ t ≤ dur := by
    intro t ht
    obtain ⟨i, hi, rfl⟩ := List.mem_map.mp ht
    have hilt := hmemD i hi
    rw [List.getD_eq_getElem frame_times 0 hilt]
    exact hbound _ (List.getElem_mem hilt)
  obtain ⟨hc1, hh1, hm1⟩ := prepend_zero_spec _ dur hch0 hmem0 hdur
  obtain ⟨hc2, hh2, hl2⟩ := append_dur_spec _ dur hc1 hh1 hm1
  simp only [process_segmentation_level]
  refine ⟨hc2, hh2, hl2, ?_⟩
  rw [List.takeD_length]
  have hne2 : (if (if (((est_idxs.map (fun i => min i (nframes - 1))).destutter (· < ·)).map
      (fun i => frame_times.getD i 0)).head? = some 0 then
        (((est_idxs.map (fun i => min i (nframes - 1))).destutter (· < ·)).map
          (fun i => frame_times.getD i 0))
      else 0 :: (((est_idxs.map (fun i => min i (nframes - 1))).destutter (· < ·)).map
          (fun i => frame_times.getD i 0))).getLast? = some dur then
        (if (((est_idxs.map (fun i => min i (nframes - 1))).destutter (· < ·)).map
      (fun i => frame_times.getD i 0)).head? = some 0 then
        (((est_idxs.map (fun i => min i (nframes - 1))).destutter (· < ·)).map
          (fun i => frame_times.getD i 0))
      else 0 :: (((est_idxs.map (fun i => min i (nframes - 1))).destutter (· < ·)).map
          (fun i => frame_times.getD i 0)))
      else (if (((est_idxs.map (fun i => min i (nframes - 1))).destutter (· < ·)).map
      (fun i => frame_times.getD i 0)).head? = some 0 then
        (((est_idxs.map (fun i => min i (nframes - 1))).destutter (· < ·)).map
          (fun i => frame_times.getD i 0))
      else 0 :: (((est_idxs.map (fun i => min i (nframes - 1))).destutter (· < ·)).map
          (fun i => frame_times.getD i 0))) ++ [dur]) ≠ [] := by
    intro hnil
    rw [hnil] at hh2
    simp at hh2
  have hposlen := List.length_pos.mpr hne2
  omega

/-- Every successful `run_algorithms` result is the short-circuit pair, an
empty flat pair, a normalized flat pair, or a list of normalized levels. -/
theorem run_algorithms_ok_cases (env : Env) (track : Track) (boundaries_id : String)
    (labels_id : Option String) (config : Config)
    (hwf : WFTimes (if config.framesync then track.framesync_times else track.beats)
      track.nframes track.dur) :
    ∀ r, (run_algorithms env track boundaries_id labels_id config).2 = .ok r →
      r = .flat [] [] ∨
      (∃ ts ls, r = .flat ts ls ∧ GoodSeg track.dur ts ls) ∨
      (∃ levels, r = .hier levels ∧ ∀ p ∈ levels, GoodSeg track.dur p.1 p.2) := by
  intro r hres
  have hdur : 0 < track.dur := hwf.2.2.2.1
  by_cases hshort : track.nframes ≤ env.minimum__frames
  · simp only [run_algorithms, if_pos hshort] at hres
    right; left
    refine ⟨[0, track.dur], [0], ?_, ?_, rfl, by simp, rfl⟩
    · injection hres with h
      exact h.symm
    · exact List.chain'_cons.mpr ⟨hdur, List.chain'_singleton _⟩
  · simp only [run_algorithms, if_neg hshort] at hres
    rcases hB : get_boundaries_module env boundaries_id with e | bounds_module
    · rw [hB] at hres
      simp at hres
    rcases hL : get_labels_module env labels_id with e | labels_module
    · rw [hB, hL] at hres
      simp at hres
    rw [hB, hL] at hres
    cases hh : config.hier
    · rw [hh] at hres
      simp only [Bool.false_eq_true, if_false] at hres
      rcases hF : flat_pre track bounds_module labels_module
          (if config.framesync then track.framesync_times else track.beats) with ⟨evs, pre⟩
      rw [hF] at hres
      cases pre with
      | none =>
        left
        simp at hres
        exact hres.symm
      | some pre =>
        right; left
        simp at hres
        refine ⟨_, _, hres.symm, ?_⟩
        exact psl_spec pre.1 pre.2 track.nframes _ track.dur hwf
    · rw [hh] at hres
      simp only [if_true] at hres
      cases bounds_module with
      | none => simp at hres
      | some bm =>
        dsimp only at hres
        cases hnm : hier_incompatible bm labels_module
        · rw [hnm] at hres
          simp only [Bool.false_eq_true, if_false] at hres
          right; right
          simp at hres
          refine ⟨_, hres.symm, ?_⟩
          intro p hp
          obtain ⟨q, _, rfl⟩ := List.mem_map.mp hp
          exact psl_spec q.1 q.2 track.nframes _ track.dur hwf
        · rw [hnm] at hres
          simp at hres

/-- C2 (confirmed): every call on a track whose feature frame count is at or
below the minimum-frames threshold returns the two-point boundary result
[0, duration] with the single default label [0]; no error is raised and the
invocation trace is empty, so no registered boundary or labeling algorithm
is invoked. -/
theorem C2_short_track (env : Env) (track : Track) (boundaries_id : String)
    (labels_id : Option String) (config : Config)
    (h : track.nframes ≤ env.minimum__frames) :
    run_algorithms env track boundaries_id labels_id config =
      ([], .ok (.flat [0, track.dur] [0])) := by
  simp only [run_algorithms, if_pos h]

/-- C2 witness: the theorem applied to a 1-frame track, with unresolvable
identifiers and hierarchical mode, still yields the short-circuit result. -/
theorem C2_witness :
    trackShort.nframes ≤ env0.minimum__frames ∧
    run_algorithms env0 trackShort "nope" (some "nope") cfgHier =
      ([], .ok (.flat [0, trackShort.dur] [0])) :=
  ⟨by decide, C2_short_track env0 trackShort "nope" (some "nope") cfgHier (by decide)⟩

/-- C3 counterexample: the claimed hierarchical failures do not occur for
every hierarchical call — a track at the minimum-frames threshold returns the
short-circuit result instead of failing with MissingBoundaryAlgorithm, and an
unknown label identifier pre-empts MissingBoundaryAlgorithm with
UnknownAlgorithm. -/
theorem C3_counterexample :
    (run_algorithms env0 trackShort "gt" none cfgHier).2 =
      .ok (.flat [0, 5] [0]) ∧
    (run_algorithms env0 trackNoRefs "gt" (some "nope") cfgHier).2 =
      .error (.UnknownAlgorithm "nope") := by decide

/-- C3 (amended theorem): in hierarchical mode, provided the track's frame
count exceeds the minimum-frames threshold and the label identifier resolves,
the ground-truth boundary sentinel fails with MissingBoundaryAlgorithm, and a
boundary identifier and label identifier resolving to two algorithms of
distinct names fail with IncompatibleHierarchicalAlgorithms; in both cases
the invocation trace is empty, so the failure happens before any hierarchical
entry point is invoked. -/
theorem C3_hier_checks (env : Env) (track : Track) (labels_id : Option String)
    (config : Config) (hh : config.hier = true)
    (hlong : ¬ track.nframes ≤ env.minimum__frames) :
    (∀ lm, get_labels_module env labels_id = .ok lm →
      run_algorithms env track "gt" labels_id config =
        ([], .error .MissingBoundaryAlgorithm)) ∧
    (∀ boundaries_id bm lm, get_boundaries_module env boundaries_id = .ok (some bm) →
      get_labels_module env labels_id = .ok (some lm) → bm.name ≠ lm.name →
      run_algorithms env track boundaries_id labels_id config =
        ([], .error .IncompatibleHierarchicalAlgorithms)) := by
  constructor
  · intro lm hL
    have hB : get_boundaries_module env "gt" = .ok none := rfl
    simp only [run_algorithms, if_neg hlong, hB, hL, hh, if_true]
  · intro bid bm lm hB hL hne
    have hinc : hier_incompatible bm (some lm) = true := by
      simp [hier_incompatible, hne]
    simp only [run_algorithms, if_neg hlong, hB, hL, hh, if_true, hinc]

/-- C3 witness: the amended theorem applied to a 4-frame track, once with the
ground-truth sentinel and no labeling, once with two distinct registered
algorithms. -/
theorem C3_witness :
    (cfgHier.hier = true ∧ ¬ trackNoRefs.nframes ≤ env0.minimum__frames ∧
      algFoote.name ≠ algFmc2d.name) ∧
    run_algorithms env0 trackNoRefs "gt" none cfgHier =
      ([], .error .MissingBoundaryAlgorithm) ∧
    run_algorithms env0 trackNoRefs "foote" (some "fmc2d") cfgHier =
      ([], .error .IncompatibleHierarchicalAlgorithms) :=
  ⟨⟨rfl, by decide, by decide⟩,
   (C3_hier_checks env0 trackNoRefs none cfgHier rfl (by decide)).1 none rfl,
   (C3_hier_checks env0 trackNoRefs (some "fmc2d") cfgHier rfl (by decide)).2
     "foote" algFoote algFmc2d rfl rfl (by decide)⟩

/-- C4 counterexample: a flat ground-truth call on a track with no reference
annotation does not always return the empty pair — at or below the
minimum-frames threshold the short-circuit result [0, dur], [0] is returned
instead. -/
theorem C4_counterexample :
    trackShort.references = none ∧
    (run_algorithms env0 trackShort "gt" none cfgFlat).2 =
      .ok (.flat [0, 5] [0]) ∧
    (run_algorithms env0 trackShort "gt" none cfgFlat).2 ≠ .ok (.flat [] []) := by
  decide

/-- C4 (amended theorem): a flat ground-truth call on a track with no
reference annotation, above the minimum-frames threshold and with a
resolving label identifier, returns the empty result pair and raises no
error; the trace shows only the reference read. -/
theorem C4_no_refs_empty (env : Env) (track : Track) (labels_id : Option String)
    (config : Config) (hh : config.hier = false)
    (hlong : ¬ track.nframes ≤ env.minimum__frames)
    (hrefs : track.references = none) :
    ∀ lm, get_labels_module env labels_id = .ok lm →
      run_algorithms env track "gt" labels_id config =
        ([.readReferences], .ok (.flat [] [])) := by
  intro lm hL
  have hB : get_boundaries_module env "gt" = .ok none := rfl
  have hF : flat_pre track none lm
      (if config.framesync then track.framesync_times else track.beats) =
      ([.readReferences], none) := by
    cases lm with
    | none => simp [flat_pre, hrefs]
    | some lm => simp [flat_pre, hrefs]
  simp only [run_algorithms, if_neg hlong, hB, hL, hh, Bool.false_eq_true,
    if_false, hF]

/-- C4 witness: the amended theorem applied to the 4-frame track with no
reference annotation. -/
theorem C4_witness :
    (cfgFlat.hier = false ∧ ¬ trackNoRefs.nframes ≤ env0.minimum__frames ∧
      trackNoRefs.references = none) ∧
    run_algorithms env0 trackNoRefs "gt" none cfgFlat =
      ([.readReferences], .ok (.flat [] [])) :=
  ⟨⟨rfl, by decide, rfl⟩,
   C4_no_refs_empty env0 trackNoRefs none cfgFlat rfl (by decide) rfl none rfl⟩

/-- C1 counterexample: a flat call in which both identifiers resolve
successfully (ground truth for boundaries, labeling absent) but no reference
annotation exists returns the empty pair, whose boundary sequence does not
start at 0.0, does not end at the duration, and does not have one label
fewer than boundaries. -/
theorem C1_counterexample :
    get_boundaries_module env0 "gt" = .ok none ∧
    get_labels_module env0 none = .ok none ∧
    (run_algorithms env0 trackNoRefs "gt" none cfgFlat).2 = .ok (.flat [] []) ∧
    ¬ GoodSeg trackNoRefs.dur [] [] :=
  ⟨rfl, rfl, by decide, by decide⟩

/-- C1 (amended theorem): for every call over a well-formed frame grid, a
returned flat boundary-time sequence is strictly ascending, starts at 0.0,
ends at the track duration and carries exactly one fewer label — except for
the flat ground-truth call with no reference annotation, which returns the
empty pair; every level of a returned hierarchical result satisfies the same
properties unconditionally. -/
theorem C1_result_invariants (env : Env) (track : Track) (boundaries_id : String)
    (labels_id : Option String) (config : Config)
    (hwf : WFTimes (if config.framesync then track.framesync_times else track.beats)
      track.nframes track.dur) :
    (∀ ts ls, (run_algorithms env track boundaries_id labels_id config).2 =
        .ok (.flat ts ls) → (ts = [] ∧ ls = []) ∨ GoodSeg track.dur ts ls) ∧
    (∀ levels, (run_algorithms env track boundaries_id labels_id config).2 =
        .ok (.hier levels) → ∀ p ∈ levels, GoodSeg track.dur p.1 p.2) := by
  constructor
  · intro ts ls h
    rcases run_algorithms_ok_cases env track boundaries_id labels_id config hwf _ h with
      h1 | ⟨ts2, ls2, heq, hg⟩ | ⟨levels2, heq, _⟩
    · left
      injection h1 with e1 e2
      exact ⟨e1, e2⟩
    · injection heq with e1 e2
      subst e1
      subst e2
      exact Or.inr hg
    · exact absurd heq (by simp)
  · intro levels h
    rcases run_algorithms_ok_cases env track boundaries_id labels_id config hwf _ h with
      h1 | ⟨ts2, ls2, heq, _⟩ | ⟨levels2, heq, hg⟩
    · exact absurd h1 (by simp)
    · exact absurd heq (by simp)
    · injection heq with e
      subst e
      exact hg

/-- C1 witness: the amended theorem applied to the 4-frame scenario track
with the same registered algorithm for boundaries and labels, flat mode. -/
theorem C1_witness :
    WFTimes (if cfgFlat.framesync then trackRefs.framesync_times else trackRefs.beats)
      trackRefs.nframes trackRefs.dur ∧
    ((∀ ts ls, (run_algorithms env0 trackRefs "sf" (some "sf") cfgFlat).2 =
        .ok (.flat ts ls) → (ts = [] ∧ ls = []) ∨ GoodSeg trackRefs.dur ts ls) ∧
     (∀ levels, (run_algorithms env0 trackRefs "sf" (some "sf") cfgFlat).2 =
        .ok (.hier levels) → ∀ p ∈ levels, GoodSeg trackRefs.dur p.1 p.2)) :=
  ⟨by decide, C1_result_invariants env0 trackRefs "sf" (some "sf") cfgFlat (by decide)⟩

/-- C5 counterexample: a flat request in the same-algorithm case that yields
exactly two boundary indices with a non-null label algorithm does invoke that
(labeling-capable) algorithm's flat entry point, and the label assigned
before normalization is its raw label [7], not the default [0]. -/
theorem C5_counterexample :
    algSf.is_label_type = true ∧
    (algSf.processFlat trackNoRefs.beats).1.length = 2 ∧
    flat_pre trackNoRefs (some algSf) (some algSf) trackNoRefs.beats =
      ([.invokeFlat "sf"], some ([0, 3], [7])) ∧
    ([7] : List Int) ≠ [0] :=
  ⟨rfl, rfl, rfl, by decide⟩

/-- C5 (amended theorem): in the split flat path — the boundary module either
absent (ground truth) or of a different name than the label module — when
exactly two boundary indices are obtained and a label algorithm is present,
the labeling strategy is never invoked and the label assigned before
normalization is the single default label [0]. -/
theorem C5_two_boundaries_default_label (track : Track)
    (bounds_module : Option Algo) (lm : Algo) (frame_times : List ℚ)
    (hsplit : ∀ bm, bounds_module = some bm → bm.name ≠ lm.name) :
    ∀ evs est_idxs est_labels,
      flat_pre track bounds_module (some lm) frame_times =
        (evs, some (est_idxs, est_labels)) →
      est_idxs.length = 2 →
      est_labels = [0] ∧ ∀ n, Event.invokeFlatLabels n ∉ evs := by
  intro evs est_idxs est_labels hF hlen
  cases bounds_module with
  | some bm =>
    have hne : bm.name ≠ lm.name := hsplit bm rfl
    simp only [flat_pre, if_neg hne] at hF
    injection hF with hevs hpre
    injection hpre with hpre
    injection hpre with hidx hlab
    rw [← hidx] at hlen
    have hstep : label_step lm (bm.processFlat frame_times).1 = ([], [0]) := by
      simp only [label_step, if_pos hlen]
    rw [hstep] at hevs hlab
    refine ⟨hlab.symm, ?_⟩
    intro n hn
    rw [← hevs] at hn
    simp at hn
  | none =>
    cases hrefs : track.references with
    | none =>
      simp only [flat_pre, hrefs] at hF
      injection hF with _ hpre
      exact absurd hpre (by simp)
    | some refs =>
      simp only [flat_pre, hrefs] at hF
      injection hF with hevs hpre
      injection hpre with hpre
      injection hpre with hidx hlab
      rw [← hidx] at hlen
      have hstep : label_step lm (align_times refs.1 frame_times.dropLast) = ([], [0]) := by
        simp only [label_step, if_pos hlen]
      rw [hstep] at hevs hlab
      refine ⟨hlab.symm, ?_⟩
      intro n hn
      rw [← hevs] at hn
      simp at hn

/-- C5 witness: the amended theorem applied to distinct registered boundary
and label algorithms where the boundary algorithm emits two indices. -/
theorem C5_witness :
    (∀ bm, (some algSf : Option Algo) = some bm → bm.name ≠ algFmc2d.name) ∧
    flat_pre trackNoRefs (some algSf) (some algFmc2d) trackNoRefs.beats =
      ([.invokeFlat "sf"], some ([0, 3], [0])) ∧
    (([0] : List Int) = [0] ∧
      ∀ n, Event.invokeFlatLabels n ∉ [Event.invokeFlat "sf"]) :=
  ⟨fun bm h => by
      injection h with h
      rw [← h]
      decide,
   rfl,
   C5_two_boundaries_default_label trackNoRefs (some algSf) algFmc2d trackNoRefs.beats
     (fun bm h => by
       injection h with h
       rw [← h]
       decide)
     [Event.invokeFlat "sf"] [0, 3] [0] rfl (by decide)⟩

/-- C6 (confirmed): resolution returns null for the ground-truth boundary
sentinel and the none labeling sentinel without error, fails with
UnknownAlgorithm for identifiers absent from the catalog, and fails with
CapabilityMismatch for registered identifiers lacking the required
capability flag. -/
theorem C6_resolution (env : Env) :
    get_boundaries_module env "gt" = .ok none ∧
    get_labels_module env none = .ok none ∧
    (∀ ident, ident ≠ "gt" → lookup_algorithm env ident = none →
      get_boundaries_module env ident = .error (.UnknownAlgorithm ident)) ∧
    (∀ ident, lookup_algorithm env ident = none →
      get_labels_module env (some ident) = .error (.UnknownAlgorithm ident)) ∧
    (∀ ident m, ident ≠ "gt" → lookup_algorithm env ident = some m →
      m.is_boundary_type = false →
      get_boundaries_module env ident = .error (.CapabilityMismatch ident)) ∧
    (∀ ident m, lookup_algorithm env ident = some m → m.is_label_type = false →
      get_labels_module env (some ident) = .error (.CapabilityMismatch ident)) := by
  refine ⟨rfl, rfl, ?_, ?_, ?_, ?_⟩
  · intro ident hne hl
    simp [get_boundaries_module, if_neg hne, hl]
  · intro ident hl
    simp [get_labels_module, hl]
  · intro ident m hne hl hcap
    simp [get_boundaries_module, if_neg hne, hl, hcap]
  · intro ident m hl hcap
    simp [get_labels_module, hl, hcap]

/-- C6 witness: resolution evaluated on the concrete catalog — the two
sentinels, an unknown identifier, a label-only algorithm requested for
boundaries and a boundary-only algorithm requested for labeling. -/
theorem C6_witness :
    ("nope" ≠ "gt" ∧ lookup_algorithm env0 "nope" = none ∧
      "fmc2d" ≠ "gt" ∧ lookup_algorithm env0 "fmc2d" = some algFmc2d ∧
      algFmc2d.is_boundary_type = false ∧
      lookup_algorithm env0 "foote" = some algFoote ∧
      algFoote.is_label_type = false) ∧
    get_boundaries_module env0 "gt" = .ok none ∧
    get_labels_module env0 none = .ok none ∧
    get_boundaries_module env0 "nope" = .error (.UnknownAlgorithm "nope") ∧
    get_labels_module env0 (some "nope") = .error (.UnknownAlgorithm "nope") ∧
    get_boundaries_module env0 "fmc2d" = .error (.CapabilityMismatch "fmc2d") ∧
    get_labels_module env0 (some "foote") = .error (.CapabilityMismatch "foote") :=
  ⟨⟨by decide, rfl, by decide, rfl, rfl, rfl, rfl⟩,
   (C6_resolution env0).1,
   (C6_resolution env0).2.1,
   (C6_resolution env0).2.2.1 "nope" (by decide) rfl,
   (C6_resolution env0).2.2.2.1 "nope" rfl,
   (C6_resolution env0).2.2.2.2.1 "fmc2d" algFmc2d (by decide) rfl rfl,
   (C6_resolution env0).2.2.2.2.2 "foote" algFoote rfl rfl⟩

/-- C7 counterexample: under exactly the claimed conditions — duration 180.0,
ground-truth reference boundaries [0, 40, 95, 180], flat mode, boundary
sentinel gt, no label identifier — the returned labels are the reference
annotation's labels, here [7, 7, 7], not [-1, -1, -1]. -/
theorem C7_counterexample :
    trackRefs.dur = 180 ∧
    trackRefs.references = some ([0, 40, 95, 180], [7, 7, 7]) ∧
    (run_algorithms env0 trackRefs "gt" none cfgFlat).2 =
      .ok (.flat [0, 40, 95, 180] [7, 7, 7]) ∧
    ([7, 7, 7] : List Int) ≠ [-1, -1, -1] := by
  refine ⟨rfl, rfl, ?_, by decide⟩
  norm_num [run_algorithms, flat_pre, align_times, nearest_idx, nearest_dist, qabs,
    process_segmentation_level, get_boundaries_module, get_labels_module, env0,
    trackRefs, cfgFlat, List.destutter, List.destutter']

/-- C7 (amended theorem): on the scenario track — duration 180.0, frame grid
[0, 40, 95, 180], reference boundaries [0, 40, 95, 180] — whose reference
labels are [-1, -1, -1], the flat gt call with no label identifier returns
exactly ([0.0, 40.0, 95.0, 180.0], [-1, -1, -1]); in general a no-labeling
call returns the labels supplied by the reference annotation (or the boundary
algorithm), length-adjusted, so they are -1 exactly when those are. -/
theorem C7_scenario :
    trackRefsNeg.references = some ([0, 40, 95, 180], [-1, -1, -1]) ∧
    (run_algorithms env0 trackRefsNeg "gt" none cfgFlat).2 =
      .ok (.flat [0, 40, 95, 180] [-1, -1, -1]) := by
  refine ⟨rfl, ?_⟩
  norm_num [run_algorithms, flat_pre, align_times, nearest_idx, nearest_dist, qabs,
    process_segmentation_level, get_boundaries_module, get_labels_module, env0,
    trackRefsNeg, cfgFlat, List.destutter, List.destutter']

/-- C8 counterexample: configuration errors are not detected before any
computation for every track — on a track at the minimum-frames threshold an
unknown boundary identifier is never reported: the call succeeds with the
short-circuit result. -/
theorem C8_counterexample :
    lookup_algorithm env0 "nope" = none ∧
    run_algorithms env0 trackShort "nope" (some "nope") cfgFlat =
      ([], .ok (.flat [0, 5] [0])) :=
  ⟨rfl, by decide⟩

/-- C8 (amended theorem): identifier validation happens after features are
read and only for tracks above the minimum-frames threshold; there, a
non-resolving boundary or label identifier makes run_algorithms fail with
that resolution error and an empty invocation trace, before any algorithm
runs.  At or below the threshold the short-circuit result is returned and
identifiers are never validated. -/
theorem C8_config_errors (env : Env) (track : Track) (boundaries_id : String)
    (labels_id : Option String) (config : Config)
    (hlong : ¬ track.nframes ≤ env.minimum__frames) :
    (∀ e, get_boundaries_module env boundaries_id = .error e →
      run_algorithms env track boundaries_id labels_id config = ([], .error e)) ∧
    (∀ e bm, get_boundaries_module env boundaries_id = .ok bm →
      get_labels_module env labels_id = .error e →
      run_algorithms env track boundaries_id labels_id config = ([], .error e)) := by
  constructor
  · intro e hB
    simp only [run_algorithms, if_neg hlong, hB]
  · intro e bm hB hL
    simp only [run_algorithms, if_neg hlong, hB, hL]

/-- C8 witness: the amended theorem applied to a 4-frame track with an
unknown boundary identifier, and with a known boundary identifier but an
unknown label identifier. -/
theorem C8_witness :
    (¬ trackNoRefs.nframes ≤ env0.minimum__frames ∧
      get_boundaries_module env0 "nope" = .error (.UnknownAlgorithm "nope") ∧
      get_boundaries_module env0 "foote" = .ok (some algFoote) ∧
      get_labels_module env0 (some "nope") = .error (.UnknownAlgorithm "nope")) ∧
    run_algorithms env0 trackNoRefs "nope" none cfgFlat =
      ([], .error (.UnknownAlgorithm "nope")) ∧
    run_algorithms env0 trackNoRefs "foote" (some "nope") cfgFlat =
      ([], .error (.UnknownAlgorithm "nope")) :=
  ⟨⟨by decide, rfl, rfl, rfl⟩,
   (C8_config_errors env0 trackNoRefs "nope" none cfgFlat (by decide)).1 _ rfl,
   (C8_config_errors env0 trackNoRefs "foote" (some "nope") cfgFlat (by decide)).2
     _ _ rfl rfl⟩

/-- C9 counterexample: one track's reference-load failure terminates the
whole batch — alone, the second bundle yields a result, but behind the
failing bundle the batch call returns the error and the second bundle's
result is lost instead of being recorded as a per-track failure. -/
theorem C9_counterexample :
    process env0 [fsGood] "gt" none cfgAnnot = .ok [some (.flat [0, 5] [0])] ∧
    process env0 [fsBad, fsGood] "gt" none cfgAnnot =
      .error .ReferenceLoadError := by
  decide

/-- C9 (amended theorem): there is no per-track exception containment — an
exception in the first failing track propagates out of the batch call as the
batch's overall result, discarding all remaining tracks. -/
theorem C9_batch_abort (env : Env) (fs : FileStruct) (rest : List FileStruct)
    (boundaries_id : String) (labels_id : Option String) (config : Config)
    (e : Err)
    (h : (process_track env fs boundaries_id labels_id config).2 = .error e) :
    process env (fs :: rest) boundaries_id labels_id config = .error e := by
  simp only [process, h]

/-- C9 witness: the amended theorem applied to a failing bundle followed by a
healthy one. -/
theorem C9_witness :
    (process_track env0 fsBad "gt" none cfgAnnot).2 = .error .ReferenceLoadError ∧
    process env0 [fsBad, fsGood] "gt" none cfgAnnot =
      .error .ReferenceLoadError :=
  ⟨by decide,
   C9_batch_abort env0 fsBad [fsGood] "gt" none cfgAnnot .ReferenceLoadError
     (by decide)⟩

/-- C10 (confirmed): with annot_beats set and a reference file containing no
beat layer with at least one datum, process_track returns no result (the
Python None), with an empty invocation trace — no segmentation algorithm is
invoked and nothing is persisted — and a batch containing such a track
carries a none entry in its result list. -/
theorem C10_skip_no_beats (env : Env) (fs : FileStruct) (boundaries_id : String)
    (labels_id : Option String) (config : Config) (jam : List (List Unit))
    (hab : config.annot_beats = true) (hjam : fs.jam_beats = some jam)
    (hempty : ¬ (0 < jam.length ∧ 0 < (jam.getD 0 []).length)) :
    process_track env fs boundaries_id labels_id config = ([], .ok none) ∧
    ∀ rest ress, process env rest boundaries_id labels_id config = .ok ress →
      process env (fs :: rest) boundaries_id labels_id config =
        .ok (none :: ress) := by
  have h1 : process_track env fs boundaries_id labels_id config = ([], .ok none) := by
    simp only [process_track, hab, if_true, hjam, if_neg hempty]
  refine ⟨h1, ?_⟩
  intro rest ress hrest
  simp only [process, h1, hrest]

/-- C10 witness: the theorem applied to a bundle whose reference has no beat
layers, alone in a batch. -/
theorem C10_witness :
    (cfgAnnot.annot_beats = true ∧ fsEmptyJam.jam_beats = some [] ∧
      ¬ (0 < ([] : List (List Unit)).length ∧
        0 < (([] : List (List Unit)).getD 0 []).length)) ∧
    process_track env0 fsEmptyJam "gt" none cfgAnnot = ([], .ok none) ∧
    process env0 [fsEmptyJam] "gt" none cfgAnnot = .ok [none] :=
  ⟨⟨rfl, rfl, by decide⟩,
   (C10_skip_no_beats env0 fsEmptyJam "gt" none cfgAnnot [] rfl rfl (by decide)).1,
   (C10_skip_no_beats env0 fsEmptyJam "gt" none cfgAnnot [] rfl rfl (by decide)).2
     [] [] rfl⟩

end Msaf
